import Mathlib

/-!
Shallow embedding of the event-processing core of the `trading_tool`
repository (files `include/core/events.h`, `include/backtest/event_queue.h`,
`include/backtest/execution_engine.h`, `src/backtest/backtest_engine.cpp`),
together with proofs of the spec's claims about it.

Modelling conventions:
* `double` prices, volumes and strengths are modelled as `ℚ` (the claims are
  about the exact formulas the code computes, with no rounding subtleties);
* `std::chrono::nanoseconds` timestamps are modelled as `Int` (an `int64_t`
  count of nanoseconds; the arithmetic performed on them is comparison only);
* the `std::priority_queue` inside `EventQueue` is modelled by its contract:
  the container holds a multiset of events, and `pop` removes a maximal
  element with respect to `EventComparator` (hence of minimal timestamp),
  ties resolved consistently toward earlier container positions;
* blocking is modelled by partiality: `EventQueue.pop` returns `none` exactly
  in the state where the C++ call would block forever (empty and not stopped);
* `std::unordered_map<std::string, TickEvent>` is modelled as an association
  list with overwrite-on-insert semantics.
-/

namespace Trading

abbrev Timestamp := Int
abbrev Price := ℚ
abbrev Volume := ℚ
abbrev OrderId := Nat

/-- Side of a trade, from `enum class Side` in events.h. -/
inductive Side where
  | BUY
  | SELL
deriving DecidableEq, Repr

/-- Order status, from `enum class OrderStatus` in events.h. -/
inductive OrderStatus where
  | PENDING
  | SUBMITTED
  | FILLED
  | PARTIALLY_FILLED
  | CANCELLED
  | REJECTED
deriving DecidableEq, Repr

/-- Market tick, from `struct TickEvent` in events.h. -/
structure TickEvent where
  timestamp : Timestamp
  symbol : String
  bid : Price
  ask : Price
  bid_volume : Volume
  ask_volume : Volume
  last : Price
  last_volume : Volume
deriving DecidableEq, Repr

/-- Strategy signal, from `struct SignalEvent` in events.h. -/
structure SignalEvent where
  timestamp : Timestamp
  symbol : String
  side : Side
  strength : ℚ
  strategy_id : String
deriving DecidableEq, Repr

/-- Trading order, from `struct OrderEvent` in events.h. -/
structure OrderEvent where
  order_id : OrderId
  timestamp : Timestamp
  symbol : String
  side : Side
  quantity : Volume
  limit_price : Price
  status : OrderStatus
  strategy_id : String
deriving DecidableEq, Repr

/-- Predicate `OrderEvent::is_market_order`: `limit_price == 0.0`. -/
def OrderEvent.is_market_order (o : OrderEvent) : Bool :=
  o.limit_price == 0

/-- Execution result, from `struct FillEvent` in events.h. -/
structure FillEvent where
  order_id : OrderId
  timestamp : Timestamp
  symbol : String
  side : Side
  filled_quantity : Volume
  fill_price : Price
  commission : ℚ
  slippage : ℚ
  exchange : String
deriving DecidableEq, Repr

/-- Position accounting event, from `struct PositionUpdateEvent` in events.h. -/
structure PositionUpdateEvent where
  timestamp : Timestamp
  symbol : String
  position : Volume
  avg_entry_price : Price
  unrealized_pnl : ℚ
  realized_pnl : ℚ
deriving DecidableEq, Repr

/-- PnL accounting event, from `struct PnLUpdateEvent` in events.h. -/
structure PnLUpdateEvent where
  timestamp : Timestamp
  total_pnl : ℚ
  realized_pnl : ℚ
  unrealized_pnl : ℚ
  commission_paid : ℚ
  total_trades : Nat
  winning_trades : Nat
deriving DecidableEq, Repr

/-- The closed tagged union `using Event = std::variant<...>` in events.h. -/
inductive Event where
  | tick (t : TickEvent)
  | signal (s : SignalEvent)
  | order (o : OrderEvent)
  | fill (f : FillEvent)
  | positionUpdate (p : PositionUpdateEvent)
  | pnlUpdate (p : PnLUpdateEvent)
deriving DecidableEq, Repr

/-- Function `get_timestamp` from events.h: visits the variant and returns its
timestamp field. -/
def get_timestamp : Event → Timestamp
  | .tick t => t.timestamp
  | .signal s => s.timestamp
  | .order o => o.timestamp
  | .fill f => f.timestamp
  | .positionUpdate p => p.timestamp
  | .pnlUpdate p => p.timestamp

/-- Comparator `struct EventComparator` from events.h:
`operator()(a, b) = get_timestamp(a) > get_timestamp(b)`.  Used as the
comparator of the `std::priority_queue`, it makes the minimum-timestamp
event the top element. -/
def EventComparator (a b : Event) : Bool :=
  decide (get_timestamp b < get_timestamp a)

/-- Value `Event\x7b\x7d` (the value returned by `EventQueue::pop` on an empty stopped
queue) value-initializes the `std::variant`, which holds a value-initialized
first alternative: a `TickEvent` with zero timestamp, empty symbol, and zero
prices and volumes. -/
def defaultTick : TickEvent :=
  { timestamp := 0, symbol := "", bid := 0, ask := 0,
    bid_volume := 0, ask_volume := 0, last := 0, last_volume := 0 }

/-- The sentinel `Event` produced by `return {};` in `EventQueue::pop`. -/
def defaultEvent : Event := Event.tick defaultTick

/-- Extraction of the top of the `std::priority_queue` followed by `pop`,
modelled by the container contract: returns a maximal element with respect
to `EventComparator` — i.e. an event of minimal timestamp — and the
remaining contents; ties go to the earlier container position, a fixed
consistent choice standing in for the heap's implementation-defined one. -/
def popMinL : List Event → Option (Event × List Event)
  | [] => none
  | e :: es =>
    match popMinL es with
    | none => some (e, [])
    | some (m, rest) =>
      if EventComparator e m then some (m, e :: rest) else some (e, es)

theorem popMinL_eq_none {q : List Event} : popMinL q = none ↔ q = [] := by
  cases q with
  | nil => simp [popMinL]
  | cons e es =>
    simp only [popMinL]
    constructor
    · intro h
      cases h' : popMinL es with
      | none => rw [h'] at h; exact absurd h (by simp)
      | some p =>
        rw [h'] at h
        obtain ⟨m, rest⟩ := p
        by_cases hc : EventComparator e m <;> simp [hc] at h
    · intro h; exact absurd h (by simp)

theorem popMinL_perm {q : List Event} {m : Event} {rest : List Event}
    (h : popMinL q = some (m, rest)) : q.Perm (m :: rest) := by
  induction q generalizing m rest with
  | nil => simp [popMinL] at h
  | cons e es ih =>
    cases h' : popMinL es with
    | none =>
      have hes : es = [] := popMinL_eq_none.mp h'
      simp only [popMinL, h'] at h
      injection h with h
      injection h with h1 h2
      subst h1; subst h2
      simp [hes]
    | some p =>
      obtain ⟨m', rest'⟩ := p
      simp only [popMinL, h'] at h
      by_cases hc : EventComparator e m'
      · rw [if_pos hc] at h
        injection h with h
        injection h with h1 h2
        subst h1; subst h2
        exact ((ih h').cons e).trans (List.Perm.swap m' e rest')
      · rw [if_neg hc] at h
        injection h with h
        injection h with h1 h2
        subst h1; subst h2
        exact List.Perm.refl _

theorem popMinL_min {q : List Event} {m : Event} {rest : List Event}
    (h : popMinL q = some (m, rest)) :
    ∀ x ∈ q, get_timestamp m ≤ get_timestamp x := by
  induction q generalizing m rest with
  | nil => simp [popMinL] at h
  | cons e es ih =>
    cases h' : popMinL es with
    | none =>
      have hes : es = [] := popMinL_eq_none.mp h'
      simp only [popMinL, h'] at h
      injection h with h
      injection h with h1 h2
      subst h1; subst h2
      simp [hes]
    | some p =>
      obtain ⟨m', rest'⟩ := p
      simp only [popMinL, h'] at h
      by_cases hc : EventComparator e m'
      · rw [if_pos hc] at h
        injection h with h
        injection h with h1 h2
        subst h1; subst h2
        have hlt : get_timestamp m' < get_timestamp e := by
          simpa [EventComparator] using hc
        intro x hx
        rcases List.mem_cons.mp hx with rfl | hx'
        · exact le_of_lt hlt
        · exact ih h' x hx'
      · rw [if_neg hc] at h
        injection h with h
        injection h with h1 h2
        subst h1; subst h2
        have hle : get_timestamp e ≤ get_timestamp m' := by
          simpa [EventComparator, not_lt] using hc
        intro x hx
        rcases List.mem_cons.mp hx with rfl | hx'
        · exact le_refl _
        · exact le_trans hle (ih h' x hx')

theorem popMinL_length {q : List Event} {m : Event} {rest : List Event}
    (h : popMinL q = some (m, rest)) : rest.length < q.length := by
  have := (popMinL_perm h).length_eq
  simp only [List.length_cons] at this
  omega

/-- The sequence of events obtained by repeatedly extracting the queue's
minimum until it is empty: the order in which successive `pop()` calls
return the queued events. -/
def drainList (q : List Event) : List Event :=
  match h : popMinL q with
  | none => []
  | some (m, rest) => m :: drainList rest
termination_by q.length
decreasing_by exact popMinL_length h

theorem drainList_nil : drainList [] = [] := by
  rw [drainList]
  rfl

theorem drainList_cons {q : List Event} {m : Event} {rest : List Event}
    (h : popMinL q = some (m, rest)) : drainList q = m :: drainList rest := by
  rw [drainList, h]

theorem drainList_perm (q : List Event) : (drainList q).Perm q := by
  generalize hn : q.length = n
  induction n using Nat.strong_induction_on generalizing q with
  | _ n ih =>
    cases h : popMinL q with
    | none =>
      have : q = [] := popMinL_eq_none.mp h
      subst this
      simp [drainList_nil]
    | some p =>
      obtain ⟨m, rest⟩ := p
      rw [drainList_cons h]
      have hlen : rest.length < n := hn ▸ popMinL_length h
      exact ((ih rest.length hlen rest rfl).cons m).trans (popMinL_perm h).symm

theorem drainList_sorted (q : List Event) :
    (drainList q).Pairwise (fun a b => get_timestamp a ≤ get_timestamp b) := by
  generalize hn : q.length = n
  induction n using Nat.strong_induction_on generalizing q with
  | _ n ih =>
    cases h : popMinL q with
    | none =>
      have : q = [] := popMinL_eq_none.mp h
      subst this
      simp [drainList_nil]
    | some p =>
      obtain ⟨m, rest⟩ := p
      rw [drainList_cons h]
      have hlen : rest.length < n := hn ▸ popMinL_length h
      refine List.Pairwise.cons ?_ (ih rest.length hlen rest rfl)
      intro x hx
      have hxrest : x ∈ rest := (drainList_perm rest).mem_iff.mp hx
      have hxq : x ∈ q := (popMinL_perm h).mem_iff.mpr (List.mem_cons_of_mem m hxrest)
      exact popMinL_min h x hxq

/-! ## EventQueue (include/backtest/event_queue.h)

State of the `EventQueue` class: the multiset of queued events (held in
arrival order) and the `stopped_` flag. -/

structure EventQueue where
  queue : List Event
  stopped : Bool
deriving DecidableEq, Repr

/-- Operation `EventQueue::push`: inserts the event; never fails. -/
def EventQueue.push (s : EventQueue) (e : Event) : EventQueue :=
  { s with queue := s.queue ++ [e] }

/-- Operation `EventQueue::pop`: waits until the queue is non-empty or stopped
(`none` models the call blocking forever in the empty, not-stopped state);
if the queue is empty (hence stopped) it returns the value-initialized
sentinel `Event{}`, otherwise it removes and returns the top of the
priority queue. -/
def EventQueue.pop (s : EventQueue) : Option (Event × EventQueue) :=
  match popMinL s.queue with
  | some (m, rest) => some (m, { s with queue := rest })
  | none => if s.stopped then some (defaultEvent, s) else none

/-- Operation `EventQueue::try_pop`: returns immediately; `(none, s)` when the queue
is empty (never consulting `stopped_`), otherwise the extracted top and the
remaining state. -/
def EventQueue.try_pop (s : EventQueue) : Option Event × EventQueue :=
  match popMinL s.queue with
  | some (m, rest) => (some m, { s with queue := rest })
  | none => (none, s)

/-- Observation `EventQueue::empty`. -/
def EventQueue.empty (s : EventQueue) : Bool := s.queue.isEmpty

/-- Observation `EventQueue::size`. -/
def EventQueue.size (s : EventQueue) : Nat := s.queue.length

/-- Operation `EventQueue::stop`: sets the `stopped_` flag (and wakes all waiters —
no separate state in this model). -/
def EventQueue.stop (s : EventQueue) : EventQueue :=
  { s with stopped := true }

/-- The sequence of events returned by successively extracting the top of
the queue (via `pop`/`try_pop`) until no events remain. -/
def EventQueue.drain (s : EventQueue) : List Event := drainList s.queue

/-! ## ExecutionEngine (include/backtest/execution_engine.h) -/

/-- Input `struct SlippageInput`. -/
structure SlippageInput where
  mid_price : Price
  order_qty : Volume
  available_liquidity : Volume
  side : Side
deriving DecidableEq, Repr

/-- Alias `using SlippageModel = std::function<Price(const SlippageInput&)>`. -/
def SlippageModel := SlippageInput → Price

/-- The fixed default `fee_rate` constant in
`ExecutionEngine::compute_commission`: `0.0005` (5 basis points). -/
def fee_rate : ℚ := 0.0005

/-- Function `ExecutionEngine::compute_commission`: `qty * price * fee_rate`. -/
def compute_commission (qty : Volume) (price : Price) : ℚ :=
  qty * price * fee_rate

/-- Function `ExecutionEngine::mid_price`: `(bid + ask) * 0.5`. -/
def mid_price (tick : TickEvent) : Price :=
  (tick.bid + tick.ask) * (1 / 2)

/-- Lookup in the `last_ticks_` map (`std::unordered_map` keyed by symbol):
first binding for the key, if any. -/
def lookupTick : List (String × TickEvent) → String → Option TickEvent
  | [], _ => none
  | (k, v) :: rest, sym => if k = sym then some v else lookupTick rest sym

/-- Assignment `last_ticks_[symbol] = tick`: overwrite the existing binding for the
symbol, or add one. -/
def insertTick : List (String × TickEvent) → String → TickEvent →
    List (String × TickEvent)
  | [], sym, t => [(sym, t)]
  | (k, v) :: rest, sym, t =>
    if k = sym then (k, t) :: rest else (k, v) :: insertTick rest sym t

/-- State of the `ExecutionEngine` class: the public `fills_history` vector
and the private `last_ticks_` snapshot cache.  The queue it pushes into is
threaded explicitly (`on_order` returns the events it pushes), and the
injected `slippage_model_` is passed as a parameter to the operations. -/
structure ExecutionEngine where
  fills_history : List FillEvent
  last_ticks : List (String × TickEvent)
deriving DecidableEq, Repr

/-- Operation `ExecutionEngine::on_tick`: unconditionally overwrites the cached
snapshot for `tick.symbol`. -/
def ExecutionEngine.on_tick (s : ExecutionEngine) (tick : TickEvent) :
    ExecutionEngine :=
  { s with last_ticks := insertTick s.last_ticks tick.symbol tick }

/-- Function `ExecutionEngine::compute_execution_price`: queries the slippage model
at the mid price, order quantity, available liquidity and side; clamps the
slipped price to the limit for non-market orders (Buy capped above, Sell
floored below); market orders pass through unclamped. -/
def compute_execution_price (slippage_model : SlippageModel)
    (order : OrderEvent) (tick : TickEvent) : Price :=
  let mid := mid_price tick
  let input : SlippageInput :=
    { mid_price := mid, order_qty := order.quantity,
      available_liquidity := tick.bid_volume + tick.ask_volume,
      side := order.side }
  let slipped_price := slippage_model input
  if order.is_market_order then slipped_price
  else if order.side = Side.BUY ∧ slipped_price > order.limit_price then
    order.limit_price
  else if order.side = Side.SELL ∧ slipped_price < order.limit_price then
    order.limit_price
  else slipped_price

/-- The local `FillEvent fill{...}` value built in
`ExecutionEngine::on_order` for an order priced against a cached tick. -/
def make_fill (slippage_model : SlippageModel) (order : OrderEvent)
    (tick : TickEvent) : FillEvent :=
  let execution_price := compute_execution_price slippage_model order tick
  let fill_qty := order.quantity
  { order_id := order.order_id,
    timestamp := tick.timestamp,
    symbol := order.symbol,
    side := order.side,
    filled_quantity := fill_qty,
    fill_price := execution_price,
    commission := compute_commission fill_qty execution_price,
    slippage := execution_price - mid_price tick,
    exchange := "SIMULATED" }

/-- Operation `ExecutionEngine::on_order`: if no cached tick exists for the order's
symbol, returns unchanged having pushed nothing; otherwise appends the fill
to `fills_history` and pushes it onto the event queue (the second component
lists the events pushed). -/
def ExecutionEngine.on_order (slippage_model : SlippageModel)
    (s : ExecutionEngine) (order : OrderEvent) :
    ExecutionEngine × List Event :=
  match lookupTick s.last_ticks order.symbol with
  | none => (s, [])
  | some tick =>
    let fill := make_fill slippage_model order tick
    ({ s with fills_history := s.fills_history ++ [fill] },
     [Event.fill fill])

/-! ## BacktestEngine (src/backtest/backtest_engine.cpp) -/

/-- State of the `BacktestEngine` class: its queue, its execution engine,
the `running_` flag and the `events_processed_` counter. -/
structure BacktestEngine where
  queue : EventQueue
  exec : ExecutionEngine
  running : Bool
  events_processed : Nat
deriving DecidableEq, Repr

/-- Operation `BacktestEngine::push_event`: thin pass-through enqueue. -/
def BacktestEngine.push_event (s : BacktestEngine) (e : Event) :
    BacktestEngine :=
  { s with queue := s.queue.push e }

/-- Operation `BacktestEngine::stop`: clears `running_` and stops the queue. -/
def BacktestEngine.stop (s : BacktestEngine) : BacktestEngine :=
  { s with running := false, queue := s.queue.stop }

/-- Handler `BacktestEngine::handle_tick`: forwards to the execution engine. -/
def BacktestEngine.handle_tick (s : BacktestEngine) (tick : TickEvent) :
    BacktestEngine :=
  { s with exec := s.exec.on_tick tick }

/-- Handler `BacktestEngine::handle_signal`: synthesizes a market order (id = the
current `events_processed_` counter, quantity 1.0, limit price 0.0, status
Pending, remaining fields copied from the signal) and pushes it. -/
def BacktestEngine.handle_signal (s : BacktestEngine) (sig : SignalEvent) :
    BacktestEngine :=
  let order : OrderEvent :=
    { order_id := s.events_processed,
      timestamp := sig.timestamp,
      symbol := sig.symbol,
      side := sig.side,
      quantity := 1,
      limit_price := 0,
      status := OrderStatus.PENDING,
      strategy_id := sig.strategy_id }
  { s with queue := s.queue.push (Event.order order) }

/-- Handler `BacktestEngine::handle_order`: forwards to the execution engine, which
pushes any resulting fill onto the queue. -/
def BacktestEngine.handle_order (slippage_model : SlippageModel)
    (s : BacktestEngine) (order : OrderEvent) : BacktestEngine :=
  let r := s.exec.on_order slippage_model order
  { s with exec := r.1, queue := r.2.foldl EventQueue.push s.queue }

/-- Handler `BacktestEngine::handle_fill`: logging only; no state change. -/
def BacktestEngine.handle_fill (s : BacktestEngine) (_fill : FillEvent) :
    BacktestEngine :=
  s

/-- Dispatcher `BacktestEngine::handle_event`: dispatch by variant alternative;
`PositionUpdateEvent` and `PnLUpdateEvent` have no branch and do nothing. -/
def BacktestEngine.handle_event (slippage_model : SlippageModel)
    (s : BacktestEngine) (e : Event) : BacktestEngine :=
  match e with
  | .tick t => s.handle_tick t
  | .signal sig => s.handle_signal sig
  | .order o => BacktestEngine.handle_order slippage_model s o
  | .fill f => s.handle_fill f
  | .positionUpdate _ => s
  | .pnlUpdate _ => s

/-- Operation `BacktestEngine::registerFillEvent`: appends directly to the execution
engine's `fills_history`. -/
def BacktestEngine.registerFillEvent (s : BacktestEngine) (fill : FillEvent) :
    BacktestEngine :=
  { s with exec :=
      { s.exec with fills_history := s.exec.fills_history ++ [fill] } }

/-! ## Concrete sample data used by the witnesses -/

/-- A constant slippage policy, the simplest conforming implementation. -/
def constSlippage (p : Price) : SlippageModel := fun _ => p

/-- A sample tick event with the given timestamp. -/
def sampleTick (n : Int) : TickEvent :=
  { timestamp := n, symbol := "A", bid := 1, ask := 2,
    bid_volume := 3, ask_volume := 4, last := 1, last_volume := 1 }

/-- A sample event with the given timestamp. -/
def sampleEvent (n : Int) : Event := Event.tick (sampleTick n)

/-- The tick of the spec's end-to-end scenario: bid 99, ask 101 at t = 0. -/
def tickABC : TickEvent :=
  { timestamp := 0, symbol := "ABC", bid := 99, ask := 101,
    bid_volume := 10, ask_volume := 10, last := 100, last_volume := 1 }

/-- A buy order with limit price 99.5. -/
def buyLimitOrder : OrderEvent :=
  { order_id := 7, timestamp := 1, symbol := "ABC", side := Side.BUY,
    quantity := 5, limit_price := 199 / 2, status := OrderStatus.PENDING,
    strategy_id := "strat" }

/-- A sell order with limit price 101. -/
def sellLimitOrder : OrderEvent :=
  { order_id := 8, timestamp := 1, symbol := "ABC", side := Side.SELL,
    quantity := 5, limit_price := 101, status := OrderStatus.PENDING,
    strategy_id := "strat" }

/-- A market order (limit price 0). -/
def marketOrder : OrderEvent :=
  { order_id := 9, timestamp := 1, symbol := "ABC", side := Side.BUY,
    quantity := 10, limit_price := 0, status := OrderStatus.PENDING,
    strategy_id := "strat" }

/-! ## Helper lemmas -/

theorem lookupTick_insertTick_self (m : List (String × TickEvent))
    (k : String) (v : TickEvent) :
    lookupTick (insertTick m k v) k = some v := by
  induction m with
  | nil => simp [insertTick, lookupTick]
  | cons p rest ih =>
    obtain ⟨k', v'⟩ := p
    by_cases hk : k' = k
    · subst hk
      simp [insertTick, lookupTick]
    · simp [insertTick, lookupTick, hk, ih]

theorem foldl_push_queue (events : List Event) (init : EventQueue) :
    (events.foldl EventQueue.push init).queue = init.queue ++ events := by
  induction events generalizing init with
  | nil => simp
  | cons e es ih => simp [EventQueue.push, ih]

/-! ## Claim theorems -/

/-- C3: an order whose symbol has no cached tick is silently dropped by
`on_order`: no fill is produced, nothing is pushed onto the queue, and the
whole engine state — fills history and snapshot cache — is unchanged. -/
theorem on_order_drops_without_tick (slippage_model : SlippageModel)
    (s : ExecutionEngine) (order : OrderEvent)
    (h : lookupTick s.last_ticks order.symbol = none) :
    ExecutionEngine.on_order slippage_model s order = (s, []) := by
  unfold ExecutionEngine.on_order
  rw [h]

/-- Witness for C3: an order for symbol "ABC" against an engine with an
empty snapshot cache is dropped with the engine unchanged. -/
theorem on_order_drops_without_tick_witness :
    ExecutionEngine.on_order (constSlippage 100)
      { fills_history := [], last_ticks := [] } marketOrder =
      ({ fills_history := [], last_ticks := [] }, []) :=
  on_order_drops_without_tick (constSlippage 100)
    { fills_history := [], last_ticks := [] } marketOrder rfl

/-- C4: processing a Signal through the loop's dispatch synthesizes exactly
one Order — id equal to the current processed-event counter, timestamp,
symbol, side and strategy id copied from the signal, quantity 1.0, limit
price 0.0 (a market order), status Pending — and pushes it onto the queue,
changing nothing else. -/
theorem handle_signal_synthesizes_market_order (slippage_model : SlippageModel)
    (s : BacktestEngine) (sig : SignalEvent) :
    BacktestEngine.handle_event slippage_model s (Event.signal sig) =
      { s with queue := s.queue.push (Event.order
          { order_id := s.events_processed, timestamp := sig.timestamp,
            symbol := sig.symbol, side := sig.side, quantity := 1,
            limit_price := 0, status := OrderStatus.PENDING,
            strategy_id := sig.strategy_id }) } ∧
    OrderEvent.is_market_order
      { order_id := s.events_processed, timestamp := sig.timestamp,
        symbol := sig.symbol, side := sig.side, quantity := 1,
        limit_price := 0, status := OrderStatus.PENDING,
        strategy_id := sig.strategy_id } = true := by
  constructor
  · rfl
  · simp [OrderEvent.is_market_order]

/-- C7: `pop` on a stopped, empty queue returns the value-initialized
sentinel event (not an error), and `try_pop` on an empty queue returns a
"no data" result immediately, with the same result whatever the stopped
flag holds. -/
theorem pop_stopped_empty_returns_sentinel :
    EventQueue.pop { queue := [], stopped := true } =
      some (defaultEvent, { queue := [], stopped := true }) ∧
    ∀ b : Bool, EventQueue.try_pop { queue := [], stopped := b } =
      (none, { queue := [], stopped := b }) :=
  ⟨rfl, fun _ => rfl⟩

/-- C8: `stop` sets only the stopped flag and leaves the queued events
untouched; it is idempotent; and every event queued before the stop remains
extractable afterwards (it occurs in the drain obtained by successive
`try_pop`/`pop` extractions). -/
theorem stop_preserves_queue (s : EventQueue) :
    EventQueue.stop s = { queue := s.queue, stopped := true } ∧
    EventQueue.stop (EventQueue.stop s) = EventQueue.stop s ∧
    ∀ e ∈ s.queue, e ∈ (EventQueue.stop s).drain := by
  refine ⟨rfl, rfl, ?_⟩
  intro e he
  exact (drainList_perm s.queue).mem_iff.mpr he

/-- Witness for C8: a queue holding one event keeps it poppable after
`stop`, and stopping changes only the flag. -/
theorem stop_preserves_queue_witness :
    EventQueue.stop { queue := [sampleEvent 3], stopped := false } =
      { queue := [sampleEvent 3], stopped := true } ∧
    sampleEvent 3 ∈
      (EventQueue.stop { queue := [sampleEvent 3], stopped := false }).drain :=
  ⟨(stop_preserves_queue { queue := [sampleEvent 3], stopped := false }).1,
   (stop_preserves_queue { queue := [sampleEvent 3], stopped := false }).2.2
     (sampleEvent 3) (by simp)⟩

/-- C9: the fills history is append-only across every operation: `on_tick`
leaves it unchanged, `on_order` extends it by some (possibly empty) suffix,
`registerFillEvent` appends exactly the given fill, and `handle_event`
extends it by some suffix; the existing prefix is never removed or
mutated. -/
theorem fills_history_append_only (slippage_model : SlippageModel)
    (ex : ExecutionEngine) (tick : TickEvent) (order : OrderEvent)
    (b : BacktestEngine) (fill : FillEvent) (e : Event) :
    (ex.on_tick tick).fills_history = ex.fills_history ∧
    (∃ t, (ExecutionEngine.on_order slippage_model ex order).1.fills_history =
      ex.fills_history ++ t) ∧
    (b.registerFillEvent fill).exec.fills_history =
      b.exec.fills_history ++ [fill] ∧
    (∃ t, (BacktestEngine.handle_event slippage_model b e).exec.fills_history =
      b.exec.fills_history ++ t) := by
  refine ⟨rfl, ?_, rfl, ?_⟩
  · unfold ExecutionEngine.on_order
    cases lookupTick ex.last_ticks order.symbol with
    | none => exact ⟨[], by simp⟩
    | some t => exact ⟨_, rfl⟩
  · cases e with
    | tick t => exact ⟨[], by simp [BacktestEngine.handle_event,
        BacktestEngine.handle_tick, ExecutionEngine.on_tick]⟩
    | signal sig => exact ⟨[], by simp [BacktestEngine.handle_event,
        BacktestEngine.handle_signal]⟩
    | order o =>
      show ∃ t, (BacktestEngine.handle_order slippage_model b o).exec.fills_history =
        b.exec.fills_history ++ t
      unfold BacktestEngine.handle_order ExecutionEngine.on_order
      cases lookupTick b.exec.last_ticks o.symbol with
      | none => exact ⟨[], by simp⟩
      | some t => exact ⟨_, rfl⟩
    | fill f => exact ⟨[], by simp [BacktestEngine.handle_event,
        BacktestEngine.handle_fill]⟩
    | positionUpdate p => exact ⟨[], by simp [BacktestEngine.handle_event]⟩
    | pnlUpdate p => exact ⟨[], by simp [BacktestEngine.handle_event]⟩

/-- C10: the sentinel returned by `pop` on a stopped, empty queue is the
value-initialized Event — a default-constructed TickEvent (the variant's
first alternative) with zero timestamp, empty symbol and zero prices and
volumes — so it is a genuine Tick event structurally; dispatching it
through `handle_event` handles it as a Tick and overwrites the snapshot
cache entry for the empty-string symbol. -/
theorem pop_sentinel_is_default_tick (slippage_model : SlippageModel)
    (b : BacktestEngine) :
    EventQueue.pop { queue := [], stopped := true } =
      some (defaultEvent, { queue := [], stopped := true }) ∧
    defaultEvent = Event.tick
      { timestamp := 0, symbol := "", bid := 0, ask := 0,
        bid_volume := 0, ask_volume := 0, last := 0, last_volume := 0 } ∧
    BacktestEngine.handle_event slippage_model b defaultEvent =
      { b with exec := b.exec.on_tick defaultTick } ∧
    lookupTick
      (BacktestEngine.handle_event slippage_model b defaultEvent).exec.last_ticks
      "" = some defaultTick := by
  refine ⟨rfl, rfl, rfl, ?_⟩
  exact lookupTick_insertTick_self b.exec.last_ticks "" defaultTick

/-- C1: events pushed in arbitrary order come back from successive `pop`
calls in non-decreasing timestamp order; the drain is a permutation of what
was pushed; and whenever `pop` returns from a non-empty queue it removes
and returns an event of minimum timestamp among those currently queued. -/
theorem eventQueue_pop_chronological (events : List Event) :
    (EventQueue.drain
        (events.foldl EventQueue.push { queue := [], stopped := false })).Pairwise
      (fun a b => get_timestamp a ≤ get_timestamp b) ∧
    (EventQueue.drain
        (events.foldl EventQueue.push { queue := [], stopped := false })).Perm
      events ∧
    ∀ (s : EventQueue) (e : Event) (s' : EventQueue),
      s.pop = some (e, s') → s.queue ≠ [] →
        (∀ x ∈ s.queue, get_timestamp e ≤ get_timestamp x) ∧
        s.queue.Perm (e :: s'.queue) := by
  have hq : (events.foldl EventQueue.push
      { queue := [], stopped := false }).queue = events := by
    simpa using foldl_push_queue events { queue := [], stopped := false }
  refine ⟨?_, ?_, ?_⟩
  · unfold EventQueue.drain
    rw [hq]
    exact drainList_sorted events
  · unfold EventQueue.drain
    rw [hq]
    exact drainList_perm events
  · intro s e s' hpop hne
    cases h : popMinL s.queue with
    | none => exact absurd (popMinL_eq_none.mp h) hne
    | some p =>
      obtain ⟨m, rest⟩ := p
      simp only [EventQueue.pop, h] at hpop
      injection hpop with hp
      injection hp with h1 h2
      subst h1
      subst h2
      exact ⟨popMinL_min h, popMinL_perm h⟩

/-- Witness for C1: popping a two-event queue pushed out of order returns
the earlier-timestamped event first, leaving the other queued. -/
theorem eventQueue_pop_chronological_witness :
    ([sampleEvent 5, sampleEvent 3] : List Event).Perm
      (sampleEvent 3 :: [sampleEvent 5]) ∧
    get_timestamp (sampleEvent 3) ≤ get_timestamp (sampleEvent 5) := by
  have h := (eventQueue_pop_chronological [sampleEvent 5, sampleEvent 3]).2.2
    { queue := [sampleEvent 5, sampleEvent 3], stopped := false }
    (sampleEvent 3) { queue := [sampleEvent 5], stopped := false }
    (by decide) (by decide)
  exact ⟨h.2, h.1 (sampleEvent 5) (by simp)⟩

/-- C2: for a non-market Buy order whose slipped price exceeds the limit
the execution price is exactly the limit; for a non-market Sell order
whose slipped price is below the limit it is exactly the limit; a market
order (limit price 0) always takes the slippage model's raw output. -/
theorem compute_execution_price_clamp_policy (slippage_model : SlippageModel)
    (order : OrderEvent) (tick : TickEvent) :
    (order.limit_price ≠ 0 → order.side = Side.BUY →
      order.limit_price <
        slippage_model
          { mid_price := mid_price tick, order_qty := order.quantity,
            available_liquidity := tick.bid_volume + tick.ask_volume,
            side := order.side } →
      compute_execution_price slippage_model order tick =
        order.limit_price) ∧
    (order.limit_price ≠ 0 → order.side = Side.SELL →
      slippage_model
          { mid_price := mid_price tick, order_qty := order.quantity,
            available_liquidity := tick.bid_volume + tick.ask_volume,
            side := order.side } < order.limit_price →
      compute_execution_price slippage_model order tick =
        order.limit_price) ∧
    (order.limit_price = 0 →
      compute_execution_price slippage_model order tick =
        slippage_model
          { mid_price := mid_price tick, order_qty := order.quantity,
            available_liquidity := tick.bid_volume + tick.ask_volume,
            side := order.side }) := by
  refine ⟨?_, ?_, ?_⟩
  · intro h0 hside hlt
    have hm : order.is_market_order = false := by
      simp [OrderEvent.is_market_order, h0]
    rw [hside] at hlt
    simp [compute_execution_price, hm, hside, hlt]
  · intro h0 hside hlt
    have hm : order.is_market_order = false := by
      simp [OrderEvent.is_market_order, h0]
    rw [hside] at hlt
    simp [compute_execution_price, hm, hside, hlt]
  · intro h0
    have hm : order.is_market_order = true := by
      simp [OrderEvent.is_market_order, h0]
    simp [compute_execution_price, hm]

/-- Witness for C2: with bid 99 / ask 101, a buy limited at 99.5 against a
slipped price of 100.5 fills at 99.5; a sell limited at 101 against a
slipped price of 100 fills at 101; a market order takes the raw slipped
price of 100. -/
theorem compute_execution_price_clamp_policy_witness :
    compute_execution_price (constSlippage (201 / 2)) buyLimitOrder tickABC =
      199 / 2 ∧
    compute_execution_price (constSlippage 100) sellLimitOrder tickABC =
      101 ∧
    compute_execution_price (constSlippage 100) marketOrder tickABC = 100 := by
  refine ⟨?_, ?_, ?_⟩
  · exact (compute_execution_price_clamp_policy (constSlippage (201 / 2))
      buyLimitOrder tickABC).1 (by norm_num [buyLimitOrder]) rfl
      (by norm_num [buyLimitOrder, constSlippage])
  · exact (compute_execution_price_clamp_policy (constSlippage 100)
      sellLimitOrder tickABC).2.1 (by decide) rfl (by decide)
  · exact (compute_execution_price_clamp_policy (constSlippage 100)
      marketOrder tickABC).2.2 rfl

/-- C5: an order with a cached tick produces exactly one fill, appended to
the history and pushed onto the queue, carrying the order's id, symbol and
side, the tick's timestamp, the full requested quantity, the fixed venue
tag "SIMULATED", and a reported slippage of fill price minus the tick's
mid price (bid + ask) / 2. -/
theorem on_order_fill_fields (slippage_model : SlippageModel)
    (s : ExecutionEngine) (order : OrderEvent) (tick : TickEvent)
    (h : lookupTick s.last_ticks order.symbol = some tick) :
    ExecutionEngine.on_order slippage_model s order =
      ({ s with fills_history :=
          s.fills_history ++ [make_fill slippage_model order tick] },
       [Event.fill (make_fill slippage_model order tick)]) ∧
    (make_fill slippage_model order tick).order_id = order.order_id ∧
    (make_fill slippage_model order tick).symbol = order.symbol ∧
    (make_fill slippage_model order tick).side = order.side ∧
    (make_fill slippage_model order tick).timestamp = tick.timestamp ∧
    (make_fill slippage_model order tick).filled_quantity = order.quantity ∧
    (make_fill slippage_model order tick).exchange = "SIMULATED" ∧
    (make_fill slippage_model order tick).slippage =
      (make_fill slippage_model order tick).fill_price -
        (tick.bid + tick.ask) / 2 := by
  refine ⟨?_, rfl, rfl, rfl, rfl, rfl, rfl, ?_⟩
  · unfold ExecutionEngine.on_order
    rw [h]
  · simp only [make_fill, mid_price]
    ring

/-- Witness for C5: a market order against the cached ABC tick yields one
fill with the stated fields. -/
theorem on_order_fill_fields_witness :
    ExecutionEngine.on_order (constSlippage 100)
      { fills_history := [], last_ticks := [("ABC", tickABC)] } marketOrder =
      ({ fills_history := [make_fill (constSlippage 100) marketOrder tickABC],
         last_ticks := [("ABC", tickABC)] },
       [Event.fill (make_fill (constSlippage 100) marketOrder tickABC)]) ∧
    (make_fill (constSlippage 100) marketOrder tickABC).slippage =
      (make_fill (constSlippage 100) marketOrder tickABC).fill_price -
        (tickABC.bid + tickABC.ask) / 2 := by
  have h := on_order_fill_fields (constSlippage 100)
    { fills_history := [], last_ticks := [("ABC", tickABC)] } marketOrder
    tickABC (by decide)
  exact ⟨h.1, h.2.2.2.2.2.2.2⟩

/-- C6: the fill emitted for every accepted order carries commission equal
to quantity times fill price times 0.0005, the default fee rate. -/
theorem fill_commission_default_rate (slippage_model : SlippageModel)
    (s : ExecutionEngine) (order : OrderEvent) (tick : TickEvent)
    (h : lookupTick s.last_ticks order.symbol = some tick) :
    (ExecutionEngine.on_order slippage_model s order).2 =
      [Event.fill (make_fill slippage_model order tick)] ∧
    (make_fill slippage_model order tick).commission =
      (make_fill slippage_model order tick).filled_quantity *
        (make_fill slippage_model order tick).fill_price * 0.0005 := by
  refine ⟨?_, ?_⟩
  · unfold ExecutionEngine.on_order
    rw [h]
  · simp only [make_fill, compute_commission, fee_rate]

/-- Witness for C6: the clamped buy fill's commission is its quantity times
its price times 0.0005. -/
theorem fill_commission_default_rate_witness :
    (ExecutionEngine.on_order (constSlippage 100)
        { fills_history := [], last_ticks := [("ABC", tickABC)] }
        buyLimitOrder).2 =
      [Event.fill (make_fill (constSlippage 100) buyLimitOrder tickABC)] ∧
    (make_fill (constSlippage 100) buyLimitOrder tickABC).commission =
      (make_fill (constSlippage 100) buyLimitOrder tickABC).filled_quantity *
        (make_fill (constSlippage 100) buyLimitOrder tickABC).fill_price *
        0.0005 :=
  fill_commission_default_rate (constSlippage 100)
    { fills_history := [], last_ticks := [("ABC", tickABC)] }
    buyLimitOrder tickABC (by decide)

end Trading
